import Mathlib

/-!
Shallow embedding of the polariscloud compute-leasing core:
the allocation lifecycle manager and termination coordinator
(src/neurons/Miner/allocate.py), the background task scheduler
(src/neurons/Miner/schedule.py), and the challenge verification and
scoring pipeline (src/neurons/Validator/challenges.py,
src/neurons/Validator/scoring.py).

Modelling conventions: Python dicts keyed by container id are embedded as
association lists (`SMap`); Python floats are embedded as exact rationals;
the external Docker runtime ("Executor") is an oracle parameter recording
which executor calls a code path performs; functions that hold
`termination_lock` for their whole body are embedded as one atomic state
transition.
-/

namespace PolarisCloud

/-- Association map keyed by strings, modelling a Python dict with unique
keys (first binding wins on lookup). -/
abbrev SMap (α : Type) := List (String × α)

/-- Lookup in an association map (Python `d.get(k)` / `d[k]`). -/
def SMap.find {α : Type} : SMap α → String → Option α
  | [], _ => none
  | (k', v) :: rest, k => if k' = k then some v else SMap.find rest k

/-- Update or insert a binding (Python `d[k] = v`). -/
def SMap.set {α : Type} : SMap α → String → α → SMap α
  | [], k, v => [(k, v)]
  | (k', v') :: rest, k, v =>
      if k' = k then (k, v) :: rest else (k', v') :: SMap.set rest k v

/-- Remove a binding if present (Python `del d[k]` / `d.pop(k, None)`). -/
def SMap.erase {α : Type} : SMap α → String → SMap α
  | [], _ => []
  | (k', v') :: rest, k =>
      if k' = k then rest else (k', v') :: SMap.erase rest k

/-! ## Metrics and challenge results (Validator side) -/

/-- The metrics dict returned with a challenge result.  Each field is
optional because the Python dict may omit it; `validate_metrics` checks
presence of all four. -/
structure Metrics where
  cpu_usage : Option ℚ
  memory_usage : Option ℚ
  memory_limit : Option ℚ
  memory_percent : Option ℚ
deriving DecidableEq

/-- A raw challenge result dict as consumed by `verify_resource_usage` and
`calculate_score`: a status string, an optional message, the metrics
sub-dict and an optional challenge type string (`result.get("type")`). -/
structure ChallengeResult where
  status : String
  message : Option String
  metrics : Metrics
  type : Option String
deriving DecidableEq

/-- `Verifier._validate_metrics` / `ScoringSystem._validate_metrics`:
all four required metric fields are present. -/
def validate_metrics (m : Metrics) : Bool :=
  m.cpu_usage.isSome && m.memory_usage.isSome &&
  m.memory_limit.isSome && m.memory_percent.isSome

/-! ## ScoringSystem (src/neurons/Validator/scoring.py) -/

/-- `ScoringSystem._calculate_resource_score`: average of the capped
memory and cpu utilisation ratios; a missing field raises KeyError in the
source, caught by the local handler which returns 0.0. -/
def calculate_resource_score (m : Metrics) : ℚ :=
  match m.memory_percent, m.cpu_usage with
  | some mp, some cu => (min (mp / 20) 1 + min (cu / 80) 1) / 2
  | _, _ => 0

/-- `ScoringSystem._calculate_availability_score`: 1.0 when both limits
hold, 0.5 when exactly one does, else 0.0; a missing field raises
KeyError, caught locally returning 0.0. -/
def calculate_availability_score (m : Metrics) : ℚ :=
  match m.memory_usage, m.memory_limit, m.cpu_usage with
  | some mu, some ml, some cu =>
      if mu ≤ ml ∧ cu ≤ 100 then 1
      else if mu ≤ ml ∨ cu ≤ 100 then 1/2
      else 0
  | _, _, _ => 0

/-- `ScoringSystem._calculate_performance_score`: dispatches on the
challenge type string, with `metrics.get(..., 0)` defaults as in the
source; unknown types score 0.0. -/
def calculate_performance_score (m : Metrics) (challenge_type : Option String) : ℚ :=
  if challenge_type = some "memory" then min ((m.memory_percent.getD 0) / 20) 1
  else if challenge_type = some "compute" then min ((m.cpu_usage.getD 0) / 80) 1
  else 0

/-- `ScoringSystem.calculate_score`: validates metrics (returning 0.0 with
no history write on failure), computes the weighted sum of the three
component scores with weights 0.4 / 0.3 / 0.3, appends the final score to
the container's score history, and returns it. -/
def calculate_score (scores : SMap (List ℚ)) (container_id : String)
    (result : ChallengeResult) : SMap (List ℚ) × ℚ :=
  if validate_metrics result.metrics then
    let resource_score := calculate_resource_score result.metrics
    let availability_score := calculate_availability_score result.metrics
    let performance_score := calculate_performance_score result.metrics result.type
    let final_score := resource_score * (4/10) + availability_score * (3/10)
      + performance_score * (3/10)
    (SMap.set scores container_id
      ((SMap.find scores container_id).getD [] ++ [final_score]), final_score)
  else (scores, 0)

/-- `ScoringSystem.get_score_history`. -/
def get_score_history (scores : SMap (List ℚ)) (container_id : String) : List ℚ :=
  (SMap.find scores container_id).getD []

/-- `ScoringSystem.get_average_score`: arithmetic mean of the history,
0.0 when empty. -/
def get_average_score (scores : SMap (List ℚ)) (container_id : String) : ℚ :=
  let s := get_score_history scores container_id
  if s = [] then 0 else s.sum / s.length

/-- Python truthiness of the optional string argument of `reset_scores`:
`None` and the empty string are falsy. -/
def truthyStr : Option String → Bool
  | none => false
  | some s => s ≠ ""

/-- `ScoringSystem.reset_scores`: `if container_id:` pops that single key,
`else` replaces the whole map with an empty dict. -/
def reset_scores (scores : SMap (List ℚ)) (container_id : Option String) :
    SMap (List ℚ) :=
  if truthyStr container_id then SMap.erase scores (container_id.getD "")
  else []

/-! ## Verifier (src/neurons/Validator/challenges.py) -/

/-- `VerificationResult` dataclass; details embedded as a rational-valued
dict. -/
structure VerificationResult where
  success : Bool
  details : SMap ℚ
  message : String
deriving DecidableEq

/-- `Verifier._verify_compute_usage`: success iff cpu_usage strictly
exceeds 50.0. -/
def verify_compute_usage (m : Metrics) : Bool × SMap ℚ :=
  let cpu_usage := m.cpu_usage.getD 0
  (cpu_usage > 50, [("cpu_usage", cpu_usage), ("threshold", 50)])

/-- `Verifier._verify_memory_usage`: success iff memory_percent is at
least 15.0 (inclusive). -/
def verify_memory_usage (m : Metrics) : Bool × SMap ℚ :=
  let memory_percent := m.memory_percent.getD 0
  (memory_percent ≥ 15,
   [("memory_percent", memory_percent), ("threshold", 15),
    ("memory_usage", m.memory_usage.getD 0),
    ("memory_limit", m.memory_limit.getD 0)])

/-- Rendering of the challenge-type value inside the Python f-string
`f"Unknown challenge type: \x7bchallenge_type\x7d"`: `None` for a missing
key, the raw string otherwise. -/
def typeText : Option String → String
  | none => "None"
  | some s => s

/-- `Verifier._store_verification`: appends the result to the container's
(possibly newly created) verification history list. -/
def store_verification (vs : SMap (List VerificationResult))
    (container_id : String) (r : VerificationResult) :
    SMap (List VerificationResult) :=
  SMap.set vs container_id ((SMap.find vs container_id).getD [] ++ [r])

/-- `Verifier.verify_resource_usage`: fail-fast returns (non-success
status, invalid metrics, unknown challenge type) do not reach
`_store_verification`; only the compute/memory dispatch path stores its
result. -/
def verify_resource_usage (vs : SMap (List VerificationResult))
    (container_id : String) (result : ChallengeResult) :
    SMap (List VerificationResult) × VerificationResult :=
  if result.status ≠ "success" then
    (vs, ⟨false, [], "Challenge failed: " ++ result.message.getD "Unknown error"⟩)
  else if ¬ validate_metrics result.metrics then
    (vs, ⟨false, [], "Invalid or missing metrics"⟩)
  else if result.type = some "compute" then
    let r := verify_compute_usage result.metrics
    let vr : VerificationResult :=
      ⟨r.1, r.2, if r.1 then "Verification successful"
                 else "Resource usage below threshold"⟩
    (store_verification vs container_id vr, vr)
  else if result.type = some "memory" then
    let r := verify_memory_usage result.metrics
    let vr : VerificationResult :=
      ⟨r.1, r.2, if r.1 then "Verification successful"
                 else "Resource usage below threshold"⟩
    (store_verification vs container_id vr, vr)
  else
    (vs, ⟨false, [], "Unknown challenge type: " ++ typeText result.type⟩)

/-! ## TaskScheduler (src/neurons/Miner/schedule.py) -/

/-- A scheduled task: absolute fire time, callback (identified by an
opaque string), recurring flag. -/
structure Task where
  execution_time : ℚ
  callback : String
  recurring : Bool
deriving DecidableEq

/-- `TaskScheduler.schedule_task`: stores the task under its id with
`execution_time = now + delay`. -/
def schedule_task (tasks : SMap Task) (task_id : String) (callback : String)
    (now delay : ℚ) (recurring : Bool) : SMap Task :=
  SMap.set tasks task_id ⟨now + delay, callback, recurring⟩

/-- A callback invocation performed by the scheduler loop: which task
fired, at which pass time, and whether the callback ran without raising. -/
structure FireEvent where
  task_id : String
  time : ℚ
  ok : Bool
deriving DecidableEq

/-- One iteration of `TaskScheduler._scheduler_loop`'s `for` body over the
snapshot `list(self.tasks.items())`: every task whose fire time has passed
is invoked (the callback may raise, abstracted by `fails`), and in the
`finally` block a non-recurring task is deleted unconditionally while a
recurring task is kept with its `execution_time` untouched. -/
def run_pass (now : ℚ) (fails : String → Bool) :
    SMap Task → SMap Task × List FireEvent
  | [] => ([], [])
  | (id, t) :: rest =>
      let r := run_pass now fails rest
      if now ≥ t.execution_time then
        (if t.recurring then (id, t) :: r.1 else r.1,
         ⟨id, now, !(fails id)⟩ :: r.2)
      else ((id, t) :: r.1, r.2)

/-- The scheduler loop as a sequence of passes at the given wall-clock
times (one `time.time()` sample per iteration of the `while` loop). -/
def run_passes (fails : String → Bool) :
    List ℚ → SMap Task → SMap Task × List FireEvent
  | [], tasks => (tasks, [])
  | now :: rest, tasks =>
      let r := run_pass now fails tasks
      let r' := run_passes fails rest r.1
      (r'.1, r.2 ++ r'.2)

/-! ## ResourceAllocator (src/neurons/Miner/allocate.py) -/

/-- The value found under the `duration` key of a request: either a
number (int/float, embedded as ℚ) or a value of some other Python type. -/
inductive DurVal
  | num (q : ℚ)
  | nonNum
deriving DecidableEq

/-- An allocation request dict: optional `memory` and `cpu_count`
(required by validation), a device list, and an optional `duration`. -/
structure Request where
  memory : Option String
  cpu_count : Option ℕ
  devices : List String
  duration : Option DurVal
deriving DecidableEq

/-- `ResourceAllocator._validate_request`: both required fields present,
and when a `duration` key exists it must be numeric and positive. -/
def validate_request (r : Request) : Bool :=
  let is_valid := r.memory.isSome && r.cpu_count.isSome
  match r.duration with
  | none => is_valid
  | some (.num q) => if q ≤ 0 then false else is_valid
  | some .nonNum => false

/-- The per-allocation `status` sub-dict stored by `allocate_resources`. -/
structure AllocStatus where
  started_at : ℚ
  duration : Option DurVal
  is_terminated : Bool
deriving DecidableEq

/-- A registry entry of `self.allocations`. -/
structure Allocation where
  request : Request
  status : AllocStatus
deriving DecidableEq

/-- Outcome of the Executor call `ContainerManager.run_container`, which
returns a status dict (never raises). -/
inductive CreateOutcome
  | ok (container_id : String)
  | failed (msg : String)
deriving DecidableEq

/-- The dict returned by `allocate_resources`. -/
structure AllocResult where
  status : String
  message : Option String
  container_id : Option String
  scheduled_termination : Option ℚ
deriving DecidableEq

/-- `ResourceAllocator.allocate_resources`: validate (error with no
executor call on failure), call `run_container` (abstracted by the
`create` oracle; the final Bool records whether it was invoked), register
the allocation under the executor-returned id, and schedule a one-shot
termination task when a positive numeric duration was supplied. -/
def allocate_resources (allocations : SMap Allocation) (tasks : SMap Task)
    (create : CreateOutcome) (now : ℚ) (request : Request) :
    SMap Allocation × SMap Task × AllocResult × Bool :=
  if ¬ validate_request request then
    (allocations, tasks, ⟨"error", some "Invalid resource request", none, none⟩, false)
  else
    match create with
    | .failed msg => (allocations, tasks, ⟨"error", some msg, none, none⟩, true)
    | .ok container_id =>
        let allocations' := SMap.set allocations container_id
          ⟨request, ⟨now, request.duration, false⟩⟩
        match request.duration with
        | some (.num q) =>
            if 0 < q then
              (allocations',
               schedule_task tasks ("terminate_" ++ container_id)
                 container_id now q false,
               ⟨"success", none, some container_id, some q⟩, true)
            else
              (allocations', tasks, ⟨"success", none, some container_id, none⟩, true)
        | _ => (allocations', tasks, ⟨"success", none, some container_id, none⟩, true)

/-- Outcome of the Docker stop/remove sequence in `_terminate_container`:
clean success, `NotFound` (caught with a warning, path continues), or any
other exception (caught, early error return). -/
inductive StopOutcome
  | ok
  | notFound
  | err (msg : String)
deriving DecidableEq

/-- Executor-facing calls made by `_terminate_container`, in order:
`get_container_stats`, the stop-and-remove sequence, and the
fire-and-forget termination notification. -/
inductive ExecCall
  | stats
  | stopRemove
  | notify
deriving DecidableEq

/-- Oracle for a single `_terminate_container` run: the stop outcome and
whether the notification succeeds (its failure is swallowed either way). -/
structure TermEnv where
  stop : StopOutcome
  notify_ok : Bool
deriving DecidableEq

/-- The dict returned by `_terminate_container` (status, message and the
container id; the remaining payload fields are irrelevant to the claims). -/
structure TermResult where
  status : String
  message : String
  container_id : String
deriving DecidableEq

/-- `ResourceAllocator._terminate_container`, whose whole body runs under
`termination_lock` and is therefore one atomic transition.  Branch by
branch from the source: a registry entry already marked `is_terminated`
returns the success "already terminated" result with no executor call;
otherwise the code fetches final stats, attempts stop-and-remove (other
errors return early with an error result and no registry change), then for
an id absent from the registry `container_info["status"]["started_at"]`
raises KeyError, caught by the outer handler which returns an error
result; on the success path the notification is attempted, the entry is
marked terminated and then deleted (net effect: erased). -/
def terminate_container (allocations : SMap Allocation) (env : TermEnv)
    (now : ℚ) (container_id : String) :
    SMap Allocation × TermResult × List ExecCall :=
  let info := SMap.find allocations container_id
  if (info.map (fun a => a.status.is_terminated)).getD false then
    (allocations, ⟨"success", "Container already terminated", container_id⟩, [])
  else
    match env.stop with
    | .err msg =>
        (allocations,
         ⟨"error", "Error stopping container: " ++ msg, container_id⟩,
         [.stats, .stopRemove])
    | _ =>
        match info with
        | none =>
            (allocations,
             ⟨"error", "Container termination failed: KeyError", container_id⟩,
             [.stats, .stopRemove])
        | some _ =>
            (SMap.erase allocations container_id,
             ⟨"success", "Container terminated successfully", container_id⟩,
             [.stats, .stopRemove, .notify])

/-- Observable lifecycle status of a lease id in the registry.  The
`terminating` stage exists in the specification's vocabulary but, as the
theorems show, is never produced by the code's representation. -/
inductive LeaseStatus
  | absent
  | active
  | terminating
  | terminated
deriving DecidableEq

/-- Status of a lease id as readable from the registry: absent, or
classified by its `is_terminated` flag. -/
def status_of (allocations : SMap Allocation) (container_id : String) :
    LeaseStatus :=
  match SMap.find allocations container_id with
  | none => .absent
  | some a => if a.status.is_terminated then .terminated else .active

/-! ## Concrete values used by counterexamples and witnesses -/

/-- A well-formed request with no duration. -/
def reqEx : Request := ⟨some "1g", some 1, [], none⟩

/-- A live registry entry created at time 0. -/
def allocActive : Allocation := ⟨reqEx, ⟨0, none, false⟩⟩

/-- A registry entry already marked terminated (the transient state the
code creates just before deleting the entry). -/
def allocDone : Allocation := ⟨reqEx, ⟨0, none, true⟩⟩

/-- A failed challenge result carrying no metrics. -/
def resFailed : ChallengeResult := ⟨"error", some "boom", ⟨none, none, none, none⟩, none⟩

/-- A successful compute challenge result with full metrics
(cpu 81, memory 100/200 bytes, 20 percent). -/
def resCompute : ChallengeResult :=
  ⟨"success", none, ⟨some 81, some 100, some 200, some 20⟩, some "compute"⟩

/-- The spec §8 exemplar scoring input: cpu_usage 80, memory_percent 20,
memory_usage ≤ memory_limit, type compute. -/
def resPerfect : ChallengeResult :=
  ⟨"success", none, ⟨some 80, some 100, some 200, some 20⟩, some "compute"⟩

/-! ## Map lemmas -/

theorem SMap.find_set_self {α : Type} (m : SMap α) (k : String) (v : α) :
    SMap.find (SMap.set m k v) k = some v := by
  induction m with
  | nil => simp [SMap.set, SMap.find]
  | cons p rest ih =>
      obtain ⟨k', v'⟩ := p
      by_cases h : k' = k <;> simp [SMap.set, SMap.find, h, ih]

theorem SMap.find_set_ne {α : Type} (m : SMap α) (k k' : String) (v : α)
    (h : k' ≠ k) : SMap.find (SMap.set m k v) k' = SMap.find m k' := by
  induction m with
  | nil => simp [SMap.set, SMap.find, Ne.symm h]
  | cons p rest ih =>
      obtain ⟨k₀, v₀⟩ := p
      by_cases h₀ : k₀ = k
      · subst h₀
        simp [SMap.set, SMap.find, Ne.symm h]
      · simp only [SMap.set, if_neg h₀, SMap.find]
        by_cases h₁ : k₀ = k' <;> simp [h₁, ih]

/-! ## Claim theorems -/

/-- Claim C10 (confirmed): `reset_scores` with the empty string — like
any falsy `container_id`, including `None` — takes the reset-everything
branch and clears every lease's score history. -/
theorem reset_scores_falsy_clears_all (scores : SMap (List ℚ)) :
    reset_scores scores (some "") = []
    ∧ reset_scores scores none = []
    ∧ (∀ c : String, get_score_history (reset_scores scores (some "")) c = []) := by
  refine ⟨?_, rfl, ?_⟩
  · simp [reset_scores, truthyStr]
  · intro c
    simp [reset_scores, truthyStr, get_score_history, SMap.find]

/-- Claim C4 (confirmed): a request missing `memory` or `cpu_count`, or
carrying a non-positive or non-numeric `duration`, makes
`allocate_resources` return the validation-error result, never invoke
`run_container` (executor flag false), and leave the registry and the
scheduler untouched. -/
theorem allocate_invalid_request (allocations : SMap Allocation)
    (tasks : SMap Task) (create : CreateOutcome) (now : ℚ) (r : Request)
    (h : r.memory = none ∨ r.cpu_count = none ∨ r.duration = some .nonNum
      ∨ ∃ q, r.duration = some (.num q) ∧ q ≤ 0) :
    allocate_resources allocations tasks create now r
      = (allocations, tasks,
         ⟨"error", some "Invalid resource request", none, none⟩, false) := by
  have hv : validate_request r = false := by
    unfold validate_request
    rcases h with h | h | h | ⟨q, hq, hle⟩
    · cases hd : r.duration with
      | none => simp [h]
      | some d => cases d <;> simp [h]
    · cases hd : r.duration with
      | none => simp [h]
      | some d => cases d <;> simp [h]
    · simp [h]
    · simp [hq, hle]
  simp [allocate_resources, hv]

/-- Witness for C4 at the spec §8 input: a request with `cpu_count` but
no `memory`. -/
theorem allocate_invalid_request_witness :
    allocate_resources [] [] (.ok "c1") 0 ⟨none, some 2, [], none⟩
      = ([], [], ⟨"error", some "Invalid resource request", none, none⟩, false) :=
  allocate_invalid_request [] [] (.ok "c1") 0 ⟨none, some 2, [], none⟩ (Or.inl rfl)

/-- Claim C1 (counterexample): for a lease id absent from the registry,
`_terminate_container` does not return the "already terminated" success
result with no Executor call as the claim states; the absent id defaults
to `is_terminated = False`, so the code proceeds into teardown, invokes
the Executor (stats fetch and stop attempt) and ends in an error result
(KeyError on the missing registry entry). -/
theorem terminate_absent_counterexample :
    (terminate_container [] ⟨.notFound, true⟩ 10 "c1").2.1.status = "error"
    ∧ (terminate_container [] ⟨.notFound, true⟩ 10 "c1").2.2
        = [.stats, .stopRemove] := by
  exact ⟨rfl, rfl⟩

/-- Claim C1 (amended): only for a lease id present in the registry and
already marked terminated does `_terminate_container` return the success
"already terminated" result with no Executor call and no registry change;
an id absent from the registry instead proceeds into teardown, invoking
the Executor (stats fetch and stop attempt), and returns an error result
while leaving the registry unchanged. -/
theorem terminate_already_terminated_or_absent (allocations : SMap Allocation)
    (env : TermEnv) (now : ℚ) (cid : String) :
    (∀ a : Allocation, SMap.find allocations cid = some a →
      a.status.is_terminated = true →
      terminate_container allocations env now cid
        = (allocations, ⟨"success", "Container already terminated", cid⟩, []))
    ∧ (SMap.find allocations cid = none →
        (terminate_container allocations env now cid).2.1.status = "error"
        ∧ (terminate_container allocations env now cid).1 = allocations
        ∧ (terminate_container allocations env now cid).2.2
            = [.stats, .stopRemove]) := by
  constructor
  · intro a hfind hterm
    simp [terminate_container, hfind, hterm]
  · intro hfind
    cases hstop : env.stop <;> simp [terminate_container, hfind, hstop]

/-- Witness for the amended C1: an entry marked terminated yields the
idempotent success result with no executor calls. -/
theorem terminate_already_terminated_witness :
    terminate_container [("c1", allocDone)] ⟨.ok, true⟩ 3 "c1"
      = ([("c1", allocDone)],
         ⟨"success", "Container already terminated", "c1"⟩, []) :=
  (terminate_already_terminated_or_absent [("c1", allocDone)] ⟨.ok, true⟩ 3 "c1").1
    allocDone rfl rfl

/-- Claim C9 (confirmed): when the Executor stop-and-remove fails for a
registered, not-yet-terminated lease, `_terminate_container` returns an
error result, leaves the registry entry exactly as it was (not deleted,
not marked terminated), dispatches no notification, and a later terminate
call for the same id retries the full teardown (and succeeds when the
Executor stop succeeds). -/
theorem terminate_stop_failure_retryable (allocations : SMap Allocation)
    (env : TermEnv) (now : ℚ) (cid : String) (a : Allocation) (msg : String)
    (hfind : SMap.find allocations cid = some a)
    (hterm : a.status.is_terminated = false)
    (hstop : env.stop = .err msg) :
    (terminate_container allocations env now cid).2.1
        = ⟨"error", "Error stopping container: " ++ msg, cid⟩
    ∧ (terminate_container allocations env now cid).1 = allocations
    ∧ SMap.find (terminate_container allocations env now cid).1 cid = some a
    ∧ ExecCall.notify ∉ (terminate_container allocations env now cid).2.2
    ∧ (∀ env' : TermEnv, env'.stop = .ok → ∀ now' : ℚ,
        (terminate_container (terminate_container allocations env now cid).1
            env' now' cid).2.1.status = "success"
        ∧ (terminate_container (terminate_container allocations env now cid).1
            env' now' cid).2.2 = [.stats, .stopRemove, .notify]) := by
  refine ⟨?_, ?_, ?_, ?_, ?_⟩
  · simp [terminate_container, hfind, hterm, hstop]
  · simp [terminate_container, hfind, hterm, hstop]
  · simp [terminate_container, hfind, hterm, hstop]
  · simp [terminate_container, hfind, hterm, hstop]
  · intro env' h' now'
    have hreg : (terminate_container allocations env now cid).1 = allocations := by
      simp [terminate_container, hfind, hterm, hstop]
    rw [hreg]
    constructor <;> simp [terminate_container, hfind, hterm, h']

/-- Witness for C9 at a concrete one-entry registry and a failing stop. -/
theorem terminate_stop_failure_witness :
    (terminate_container [("c1", allocActive)] ⟨.err "boom", true⟩ 5 "c1").1
        = [("c1", allocActive)]
    ∧ (terminate_container [("c1", allocActive)] ⟨.err "boom", true⟩ 5 "c1").2.1.status
        = "error" := by
  have h := terminate_stop_failure_retryable [("c1", allocActive)]
    ⟨.err "boom", true⟩ 5 "c1" allocActive "boom" rfl rfl rfl
  exact ⟨h.2.1, by rw [h.1]⟩

/-! ## Scheduler lemmas -/

theorem run_passes_nil_tasks (fails : String → Bool) (ts : List ℚ) :
    run_passes fails ts [] = ([], []) := by
  induction ts with
  | nil => rfl
  | cons now rest ih => simp [run_passes, run_pass, ih]

theorem run_pass_single (now : ℚ) (fails : String → Bool) (id : String) (t : Task) :
    run_pass now fails [(id, t)]
      = if now ≥ t.execution_time then
          ((if t.recurring then [(id, t)] else []), [⟨id, now, !(fails id)⟩])
        else ([(id, t)], []) := by
  by_cases h : now ≥ t.execution_time <;> simp [run_pass, h]

theorem single_nonrecurring_run (fails : String → Bool) (id : String) (t : Task)
    (hrec : t.recurring = false) (ts : List ℚ) :
    (∀ e ∈ (run_passes fails ts [(id, t)]).2,
      t.execution_time ≤ e.time ∧ e.task_id = id)
    ∧ (run_passes fails ts [(id, t)]).2.length ≤ 1 := by
  induction ts with
  | nil => simp [run_passes]
  | cons now rest ih =>
      by_cases h : now ≥ t.execution_time
      · simp [run_passes, run_pass_single, h, hrec, run_passes_nil_tasks]
      · simpa [run_passes, run_pass_single, h] using ih

/-- Claim C3 (confirmed): a non-recurring task scheduled at `t0` with
delay `d` is never fired before `t0 + d`, fires at most once over any
sequence of scheduler passes, and any pass that fires it removes it from
the task map in that same pass — regardless of whether the callback
raises (`fails`/`g`). -/
theorem scheduler_nonrecurring_once (t0 d : ℚ) (id cb : String)
    (ts : List ℚ) (fails : String → Bool) :
    (∀ e ∈ (run_passes fails ts (schedule_task [] id cb t0 d false)).2,
        t0 + d ≤ e.time)
    ∧ (run_passes fails ts (schedule_task [] id cb t0 d false)).2.length ≤ 1
    ∧ (∀ now : ℚ, ∀ g : String → Bool,
        (run_pass now g (schedule_task [] id cb t0 d false)).2 ≠ [] →
        SMap.find (run_pass now g (schedule_task [] id cb t0 d false)).1 id
          = none) := by
  have hsched : schedule_task [] id cb t0 d false
      = [(id, ⟨t0 + d, cb, false⟩)] := rfl
  rw [hsched]
  have h := single_nonrecurring_run fails id ⟨t0 + d, cb, false⟩ rfl ts
  refine ⟨fun e he => (h.1 e he).1, h.2, ?_⟩
  intro now g hne
  rw [run_pass_single] at hne ⊢
  by_cases hfire : now ≥ t0 + d
  · simp only [Task.execution_time] at *
    simp [hfire, SMap.find]
  · simp only [Task.execution_time] at hne
    simp [hfire] at hne

/-- Witness for C3: with passes at times 3 and 7 for a task scheduled at
0 with delay 5 and an always-raising callback, the task fires at most
once and is removed by the pass that fires it. -/
theorem scheduler_nonrecurring_once_witness :
    (run_passes (fun _ => true) [3, 7] (schedule_task [] "t" "cb" 0 5 false)).2.length ≤ 1
    ∧ SMap.find (run_pass 7 (fun _ => true) (schedule_task [] "t" "cb" 0 5 false)).1 "t"
        = none := by
  have h := scheduler_nonrecurring_once 0 5 "t" "cb" [3, 7] (fun _ => true)
  refine ⟨h.2.1, h.2.2 7 (fun _ => true) ?_⟩
  norm_num [run_pass, schedule_task, SMap.set]

/-- Claim C8 (counterexample): a recurring task scheduled at time 0 with
delay 5 is fired by both the pass at time 5 and the pass at time 6 — twice
inside one 5-length period — and its fire time is still `0 + 5`
afterwards, never advanced by the delay. -/
theorem recurring_task_counterexample :
    (run_passes (fun _ => false) [5, 6] (schedule_task [] "t" "cb" 0 5 true)).2
      = [⟨"t", 5, true⟩, ⟨"t", 6, true⟩]
    ∧ SMap.find
        (run_passes (fun _ => false) [5, 6] (schedule_task [] "t" "cb" 0 5 true)).1 "t"
      = some ⟨0 + 5, "cb", true⟩ := by
  norm_num [run_passes, run_pass, schedule_task, SMap.set, SMap.find]

/-- Claim C8 (amended): the scheduler loop never reschedules a recurring
task: a pass whose time has reached the task's fire time invokes the
callback and leaves the task in the map with its `execution_time`
unchanged, so the callback runs on every subsequent pass past the
original deadline rather than once per delay-length period. -/
theorem recurring_task_not_rescheduled (now : ℚ) (fails : String → Bool)
    (id : String) (t : Task) (hrec : t.recurring = true)
    (hfire : t.execution_time ≤ now) :
    run_pass now fails [(id, t)] = ([(id, t)], [⟨id, now, !(fails id)⟩]) := by
  simp [run_pass, hrec, hfire]

/-- Witness for the amended C8 at a concrete recurring task. -/
theorem recurring_task_not_rescheduled_witness :
    run_pass 6 (fun _ => false) [("t", ⟨5, "cb", true⟩)]
      = ([("t", ⟨5, "cb", true⟩)], [⟨"t", 6, true⟩]) :=
  recurring_task_not_rescheduled 6 (fun _ => false) "t" ⟨5, "cb", true⟩ rfl
    (by norm_num)

/-- Claim C2 (counterexample): a concrete run refuting the claimed
Active → Terminating → Terminated discipline and the no-reuse guarantee:
a successful terminate moves lease "c1" from Active directly to deleted
(absent) — no Terminating status is ever observable — and an allocation
whose Executor returns the same id immediately re-registers "c1" as
Active again. -/
theorem status_transition_counterexample :
    status_of [("c1", allocActive)] "c1" = .active
    ∧ (terminate_container [("c1", allocActive)] ⟨.ok, true⟩ 5 "c1").2.1.status
        = "success"
    ∧ status_of (terminate_container [("c1", allocActive)] ⟨.ok, true⟩ 5 "c1").1 "c1"
        = .absent
    ∧ status_of
        (allocate_resources
          (terminate_container [("c1", allocActive)] ⟨.ok, true⟩ 5 "c1").1
          [] (.ok "c1") 6 reqEx).1 "c1"
        = .active := by
  refine ⟨rfl, rfl, rfl, rfl⟩

/-- Claim C2 (amended): the registry represents a lease status only as
Active or Terminated (a boolean flag): no registry observation ever
yields a Terminating status; a terminate step takes an Active lease
either to an unchanged registry (failed teardown) or directly to the
registry with its entry erased (the successful path marks the entry
terminated and deletes it inside the same atomic locked step), and leaves
the registry untouched when the lease is not Active.  Reuse of a deleted
id is not prevented. -/
theorem status_transitions_atomic (allocations : SMap Allocation)
    (env : TermEnv) (now : ℚ) (cid : String) :
    status_of allocations cid ≠ .terminating
    ∧ (status_of allocations cid = .active →
        (terminate_container allocations env now cid).1 = allocations
        ∨ (terminate_container allocations env now cid).1
            = SMap.erase allocations cid)
    ∧ (status_of allocations cid ≠ .active →
        (terminate_container allocations env now cid).1 = allocations) := by
  refine ⟨?_, ?_, ?_⟩
  · unfold status_of
    cases h : SMap.find allocations cid with
    | none => simp
    | some a => by_cases ht : a.status.is_terminated <;> simp [ht]
  · intro hact
    unfold status_of at hact
    cases h : SMap.find allocations cid with
    | none => rw [h] at hact; simp at hact
    | some a =>
        rw [h] at hact
        by_cases ht : a.status.is_terminated
        · simp [ht] at hact
        · cases hstop : env.stop <;>
            simp [terminate_container, h, ht, hstop]
  · intro hact
    unfold status_of at hact
    cases h : SMap.find allocations cid with
    | none =>
        cases hstop : env.stop <;>
          simp [terminate_container, h, hstop]
    | some a =>
        rw [h] at hact
        by_cases ht : a.status.is_terminated
        · simp [terminate_container, h, ht]
        · simp [ht] at hact

/-- Witness for the amended C2: concrete instances of the three
conjuncts. -/
theorem status_transitions_atomic_witness :
    (terminate_container [("c1", allocActive)] ⟨.ok, true⟩ 5 "c1").1
        = SMap.erase [("c1", allocActive)] "c1"
    ∧ (terminate_container [("c2", allocDone)] ⟨.ok, true⟩ 5 "c2").1
        = [("c2", allocDone)] := by
  have h1 := (status_transitions_atomic [("c1", allocActive)] ⟨.ok, true⟩ 5 "c1").2.1 rfl
  have h2 := (status_transitions_atomic [("c2", allocDone)] ⟨.ok, true⟩ 5 "c2").2.2
    (by decide)
  refine ⟨?_, h2⟩
  rcases h1 with h1 | h1
  · exact absurd h1 (by decide)
  · exact h1

/-- Characterisation of the verification-history state after one
`verify_resource_usage` call: either untouched (fail-fast paths) or the
result appended under the lease id (dispatch paths). -/
theorem verify_state_cases (vs : SMap (List VerificationResult))
    (cid : String) (res : ChallengeResult) :
    (verify_resource_usage vs cid res).1 = vs
    ∨ (verify_resource_usage vs cid res).1
      = SMap.set vs cid ((SMap.find vs cid).getD []
          ++ [(verify_resource_usage vs cid res).2]) := by
  by_cases hs : res.status = "success"
  · by_cases hm : validate_metrics res.metrics = true
    · by_cases htc : res.type = some "compute"
      · right; simp [verify_resource_usage, hs, hm, htc, store_verification]
      · by_cases htm : res.type = some "memory"
        · right; simp [verify_resource_usage, hs, hm, htc, htm, store_verification]
        · left; simp [verify_resource_usage, hs, hm, htc, htm]
    · left; simp [verify_resource_usage, hs, hm]
  · left; simp [verify_resource_usage, hs]

/-- Claim C5 (confirmed): for a challenge result with success status and
all four metrics present, verification of type "compute" succeeds iff
cpu_usage strictly exceeds 50.0, of type "memory" succeeds iff
memory_percent is at least 15.0 (inclusive), and any other type value
yields a failure result carrying the explicit unknown-type message — the
embedded function is total, so no exception is raised. -/
theorem verify_thresholds (vs : SMap (List VerificationResult))
    (cid : String) (res : ChallengeResult)
    (hs : res.status = "success") (hm : validate_metrics res.metrics = true) :
    (res.type = some "compute" →
      ((verify_resource_usage vs cid res).2.success = true
        ↔ 50 < res.metrics.cpu_usage.getD 0))
    ∧ (res.type = some "memory" →
      ((verify_resource_usage vs cid res).2.success = true
        ↔ 15 ≤ res.metrics.memory_percent.getD 0))
    ∧ (res.type ≠ some "compute" → res.type ≠ some "memory" →
        (verify_resource_usage vs cid res).2.success = false
        ∧ (verify_resource_usage vs cid res).2.message
            = "Unknown challenge type: " ++ typeText res.type) := by
  refine ⟨?_, ?_, ?_⟩
  · intro ht
    simp [verify_resource_usage, hs, hm, ht, verify_compute_usage]
  · intro ht
    simp [verify_resource_usage, hs, hm, ht, verify_memory_usage]
  · intro htc htm
    simp [verify_resource_usage, hs, hm, htc, htm]

/-- Witness for C5 at the spec §8 inputs: cpu_usage 81 with type compute
verifies successfully, and cpu_usage exactly 50 fails (boundary is
exclusive). -/
theorem verify_thresholds_witness :
    (verify_resource_usage [] "c1" resCompute).2.success = true
    ∧ (verify_resource_usage [] "c1"
        ⟨"success", none, ⟨some 50, some 100, some 200, some 20⟩, some "compute"⟩).2.success
      = false := by
  constructor
  · exact ((verify_thresholds [] "c1" resCompute rfl rfl).1 rfl).mpr
      (by norm_num [resCompute])
  · have h := (verify_thresholds [] "c1"
      ⟨"success", none, ⟨some 50, some 100, some 200, some 20⟩, some "compute"⟩
      rfl rfl).1 rfl
    simp only [Bool.not_eq_true] at h ⊢
    by_contra hcon
    simp only [Bool.not_eq_false] at hcon
    exact absurd (h.mp hcon) (by norm_num)

/-- Claim C6 (confirmed): with all four metrics present,
`calculate_score` returns 0.4·resourceCompliance + 0.3·availability +
0.3·performance with the component formulas exactly as specified, and
appends that value to the lease's score history; with any metric missing
it returns 0.0 and leaves the score map untouched. -/
theorem calculate_score_formula (scores : SMap (List ℚ)) (cid : String)
    (res : ChallengeResult) :
    (∀ cu mu ml mp : ℚ,
      res.metrics.cpu_usage = some cu → res.metrics.memory_usage = some mu →
      res.metrics.memory_limit = some ml → res.metrics.memory_percent = some mp →
      (calculate_score scores cid res).2
        = (4/10) * ((min (mp/20) 1 + min (cu/80) 1) / 2)
          + (3/10) * (if mu ≤ ml ∧ cu ≤ 100 then 1
                      else if mu ≤ ml ∨ cu ≤ 100 then (1:ℚ)/2 else 0)
          + (3/10) * (if res.type = some "memory" then min (mp/20) 1
                      else if res.type = some "compute" then min (cu/80) 1
                      else 0)
      ∧ SMap.find (calculate_score scores cid res).1 cid
          = some ((SMap.find scores cid).getD []
              ++ [(calculate_score scores cid res).2]))
    ∧ (validate_metrics res.metrics = false →
        (calculate_score scores cid res).2 = 0
        ∧ (calculate_score scores cid res).1 = scores) := by
  constructor
  · intro cu mu ml mp h1 h2 h3 h4
    have hv : validate_metrics res.metrics = true := by
      simp [validate_metrics, h1, h2, h3, h4]
    constructor
    · simp only [calculate_score, hv, if_true, calculate_resource_score,
        calculate_availability_score, calculate_performance_score,
        h1, h2, h3, h4, Option.getD_some]
      ring
    · simp [calculate_score, hv, SMap.find_set_self]
  · intro hv
    simp [calculate_score, hv]

/-- Witness for C6 at the spec §8 exemplar input (cpu 80, memory percent
20, memory usage within limit, type compute): the final score is exactly
1 and is appended to the history. -/
theorem calculate_score_formula_witness :
    (calculate_score [] "c1" resPerfect).2 = 1
    ∧ SMap.find (calculate_score [] "c1" resPerfect).1 "c1" = some [1] := by
  have h := (calculate_score_formula [] "c1" resPerfect).1 80 100 200 20
    rfl rfl rfl rfl
  have hv : (calculate_score [] "c1" resPerfect).2 = 1 := by
    rw [h.1]
    norm_num [resPerfect]
  refine ⟨hv, ?_⟩
  have h2 := h.2
  rw [hv] at h2
  simpa using h2

/-- Claim C7 (counterexample): a verify call that fails fast on a
non-success challenge status returns a failure result but appends nothing
to the lease's verification history, refuting "every call appends —
including calls that fail fast". -/
theorem verify_failfast_counterexample :
    (verify_resource_usage [] "c1" resFailed).2.success = false
    ∧ SMap.find (verify_resource_usage [] "c1" resFailed).1 "c1" = none :=
  ⟨rfl, rfl⟩

/-- Claim C7 (amended): only calls that reach the compute/memory dispatch
append their VerificationResult to the lease's ordered history; the
fail-fast paths (non-success status, missing metrics, unknown challenge
type) return a failure result without storing anything.  No call mutates
or removes previously stored results: every lease's existing history
survives as an unchanged initial segment after the call. -/
theorem verify_append_only (vs : SMap (List VerificationResult))
    (cid : String) (res : ChallengeResult) :
    ((res.status = "success" ∧ validate_metrics res.metrics = true
        ∧ (res.type = some "compute" ∨ res.type = some "memory")) →
      SMap.find (verify_resource_usage vs cid res).1 cid
        = some ((SMap.find vs cid).getD []
            ++ [(verify_resource_usage vs cid res).2]))
    ∧ (¬(res.status = "success" ∧ validate_metrics res.metrics = true
        ∧ (res.type = some "compute" ∨ res.type = some "memory")) →
      (verify_resource_usage vs cid res).1 = vs)
    ∧ (∀ c : String, ∃ tail : List VerificationResult,
        SMap.find (verify_resource_usage vs cid res).1 c = SMap.find vs c
        ∨ SMap.find (verify_resource_usage vs cid res).1 c
            = some ((SMap.find vs c).getD [] ++ tail)) := by
  refine ⟨?_, ?_, ?_⟩
  · rintro ⟨hs, hm, ht | ht⟩
    · simp [verify_resource_usage, hs, hm, ht, store_verification,
        SMap.find_set_self]
    · simp [verify_resource_usage, hs, hm, ht, store_verification,
        SMap.find_set_self]
  · intro hno
    by_cases hs : res.status = "success"
    · by_cases hm : validate_metrics res.metrics = true
      · have htc : res.type ≠ some "compute" := fun h => hno ⟨hs, hm, Or.inl h⟩
        have htm : res.type ≠ some "memory" := fun h => hno ⟨hs, hm, Or.inr h⟩
        simp [verify_resource_usage, hs, hm, htc, htm]
      · simp [verify_resource_usage, hs, hm]
    · simp [verify_resource_usage, hs]
  · intro c
    rcases verify_state_cases vs cid res with h | h
    · exact ⟨[], Or.inl (by rw [h])⟩
    · by_cases hc : c = cid
      · subst hc
        exact ⟨[(verify_resource_usage vs c res).2],
          Or.inr (by rw [h, SMap.find_set_self])⟩
      · exact ⟨[], Or.inl (by rw [h]; exact SMap.find_set_ne _ _ _ _ hc)⟩

/-- Witness for the amended C7: a successful compute verification appends
its result to a previously empty history. -/
theorem verify_append_only_witness :
    SMap.find (verify_resource_usage [] "c1" resCompute).1 "c1"
      = some [(verify_resource_usage [] "c1" resCompute).2] := by
  have h := (verify_append_only [] "c1" resCompute).1 ⟨rfl, rfl, Or.inl rfl⟩
  simpa using h

end PolarisCloud
